import Mathlib

/-!
Verification of the libplugin plugin-manager / bundle-loader core.

The definitions below are a shallow embedding of the C++ sources:
`src/lib/bundle/bundle.cpp` (ABI signature parsing and matching, canonical
digest reconstruction, bundle verification, manifest parsing and variant
selection) and `src/lib/manager/plugin_manager.cpp` (the plugin registry).
Machine `int` values are modelled as `Int` with the explicit
`[-2^31, 2^31-1]` range check where C++ `std::stoi` would raise
`out_of_range`; fallible C++ code (functions that throw) is modelled with
`Option`/`Except`.
-/

namespace LibPlugin

/-! ## C string helpers

`cppGetlineSplit` models the splitting loop
`while (std::getline(ss, item, d)) parts.push_back(item);`
used by `parse_abi_signature`.  `std::getline` does not produce a final
empty field when the string ends with the delimiter, and produces no field
at all for the empty string. -/

/-- Standard split of a character list at every occurrence of `d`
(producing `n + 1` groups for `n` delimiters, empty groups included). -/
def splitOnChar (d : Char) : List Char → List (List Char)
  | [] => [[]]
  | c :: rest =>
    if c = d then [] :: splitOnChar d rest
    else
      match splitOnChar d rest with
      | [] => [[c]]
      | g :: gs => (c :: g) :: gs

def cppGetlineSplit (d : Char) (s : String) : List String :=
  match s.data with
  | [] => []
  | cs =>
    (if cs.getLast? = some d then (splitOnChar d cs).dropLast
     else splitOnChar d cs).map String.mk

/-- Characters accepted by `isspace` in the C locale, as skipped by
`std::stoi` before the number. -/
def isCppSpace (c : Char) : Bool :=
  c = ' ' ∨ c = '\t' ∨ c = '\n' ∨ c = '\x0b' ∨ c = '\x0c' ∨ c = '\r'

/-- Value of a list of decimal digit characters. -/
def decDigitsVal (ds : List Char) : Int :=
  ds.foldl (fun a c => a * 10 + (Int.ofNat (c.toNat - '0'.toNat))) 0

/-- Model of `std::stoi(s)` (base 10): skip C whitespace, an optional
sign, then at least one decimal digit; trailing non-digit characters are
ignored.  `none` models both `std::invalid_argument` (no digits) and
`std::out_of_range` (value outside the `int` range). -/
def cppStoi (s : String) : Option Int :=
  let cs := s.data.dropWhile isCppSpace
  let signed : Int × List Char :=
    match cs with
    | '+' :: t => (1, t)
    | '-' :: t => (-1, t)
    | t => (1, t)
  let ds := signed.2.takeWhile Char.isDigit
  if ds.isEmpty then none
  else
    let v : Int := signed.1 * decDigitsVal ds
    if v < -2147483648 ∨ 2147483647 < v then none else some v

/-! ## ABI signatures (`bundle.cpp`, anonymous namespace) -/

/-- Mirror of the C++ `struct ABISignature`. -/
structure ABISignature where
  compiler : String
  library : String
  version_parts : List Int
  abi_type : String
  deriving Repr, DecidableEq

/-- `std::stoi` applied to every version component, failing if any
component fails (mirrors the `try`/`catch` around the version loop). -/
def stoiList : List String → Option (List Int)
  | [] => some []
  | s :: rest =>
    match cppStoi s with
    | none => none
    | some v => (stoiList rest).map (fun vs => v :: vs)

/-- The body of `parse_abi_signature` after the `'-'` split: require
exactly four parts, parse the third as a `'.'`-separated list of
`std::stoi` integers. -/
def parseAbiFromParts : List String → Option ABISignature
  | [c, l, v, t] =>
    match stoiList (cppGetlineSplit '.' v) with
    | some vs => some { compiler := c, library := l, version_parts := vs, abi_type := t }
    | none => none
  | _ => none

/-- Mirror of `parse_abi_signature` in `bundle.cpp`. -/
def parse_abi_signature (sig_str : String) : Option ABISignature :=
  parseAbiFromParts (cppGetlineSplit '-' sig_str)

/-- The version-comparison loop of `is_abi_compatible`: walk the shared
prefix; a strictly larger host component accepts, a strictly smaller one
rejects; if the shared prefix is exhausted, accept exactly when the host
vector is at least as long as the required one. -/
def versionLoop : List Int → List Int → Bool
  | _, [] => true
  | [], _ :: _ => false
  | l :: ls, r :: rs =>
    if l > r then true
    else if l < r then false
    else versionLoop ls rs

/-- Mirror of `is_abi_compatible` in `bundle.cpp`. -/
def is_abi_compatible (hostSig requiredSig : ABISignature) : Bool :=
  if hostSig.compiler ≠ requiredSig.compiler ∨
     hostSig.library ≠ requiredSig.library ∨
     hostSig.abi_type ≠ requiredSig.abi_type then
    false
  else
    versionLoop hostSig.version_parts requiredSig.version_parts

/-! Sanity checks of the embedding on concrete inputs. -/

example : cppGetlineSplit '-' "a-b-c-d" = ["a", "b", "c", "d"] := by decide
example : cppGetlineSplit '-' "a-b-c-" = ["a", "b", "c"] := by decide
example : cppGetlineSplit '.' "" = [] := by decide
example : cppGetlineSplit '.' "3..4" = ["3", "", "4"] := by decide
example : cppStoi "3a" = some 3 := by decide
example : cppStoi "" = none := by decide
example : cppStoi "a3" = none := by decide
example : cppStoi "99999999999" = none := by decide

/-- The version-loop accepts exactly the non-`Lex`-smaller host vectors:
`versionLoop h r = true` iff `h` is not lexicographically below `r`. -/
theorem versionLoop_eq_true_iff :
    ∀ hs rs : List Int, versionLoop hs rs = true ↔ ¬ List.Lex (· < ·) hs rs := by
  intro hs
  induction hs with
  | nil =>
    intro rs
    cases rs with
    | nil =>
      simp only [versionLoop]
      constructor
      · intro _ hlex
        cases hlex
      · intro _
        trivial
    | cons r rs =>
      simp only [versionLoop]
      constructor
      · intro h
        exact absurd h (by simp)
      · intro h
        exact absurd (List.Lex.nil) h
  | cons l ls ih =>
    intro rs
    cases rs with
    | nil =>
      simp only [versionLoop]
      constructor
      · intro _ hlex
        cases hlex
      · intro _
        trivial
    | cons r rs =>
      simp only [versionLoop]
      rcases lt_trichotomy l r with hlt | heq | hgt
      · have h1 : ¬ (l > r) := by omega
        simp only [if_neg h1, if_pos hlt]
        constructor
        · intro h
          exact absurd h (by simp)
        · intro h
          exact absurd (List.Lex.rel hlt) h
      · subst heq
        have h1 : ¬ (l > l) := by omega
        have h2 : ¬ (l < l) := by omega
        simp only [if_neg h1, if_neg h2]
        rw [ih rs]
        constructor
        · intro h hlex
          cases hlex with
          | cons htail => exact h htail
          | rel hrel => omega
        · intro h htail
          exact h (List.Lex.cons htail)
      · simp only [if_pos hgt]
        constructor
        · intro _ hlex
          cases hlex with
          | cons _ => omega
          | rel hrel => omega
        · intro _
          trivial

/-- `stoiList` succeeds iff every component is accepted by `std::stoi`. -/
theorem stoiList_isSome_iff :
    ∀ l : List String, (stoiList l).isSome = true ↔ ∀ c ∈ l, (cppStoi c).isSome = true := by
  intro l
  induction l with
  | nil => simp [stoiList]
  | cons s rest ih =>
    simp only [stoiList, List.mem_cons]
    cases hs : cppStoi s with
    | none =>
      simp only [Option.isSome_none]
      constructor
      · intro h
        exact absurd h (by simp)
      · intro h
        have := h s (Or.inl rfl)
        rw [hs] at this
        exact absurd this (by simp)
    | some v =>
      cases hrest : stoiList rest with
      | none =>
        rw [hrest] at ih
        simp only [Option.map_none, Option.isSome_none]
        constructor
        · intro h
          exact absurd h (by simp)
        · intro h
          have : ∀ c ∈ rest, (cppStoi c).isSome = true := fun c hc => h c (Or.inr hc)
          have := (Option.isSome_none (α := List Int)) ▸ ih.mpr this
          simp at this
      | some vs =>
        rw [hrest] at ih
        simp only [Option.map_some, Option.isSome_some, true_iff] at ih ⊢
        constructor
        · intro _ c hc
          rcases hc with rfl | hc
          · rw [hs]; rfl
          · exact ih c hc
        · intro _
          rfl

/-- **C4.** `is_abi_compatible` accepts exactly when compiler,
standard-library and abi-tag agree and the host version vector is not
lexicographically below the required one (so a longer host vector with an
equal shared prefix is accepted); in particular host `3.4.0` is compatible
with required `3.4`, host `3.4` with required `3.4`, and host `3.3.9` is
not compatible with required `3.4`. -/
theorem claim_C4_abi_compatibility :
    (∀ h r : ABISignature,
        is_abi_compatible h r = true ↔
          (h.compiler = r.compiler ∧ h.library = r.library ∧ h.abi_type = r.abi_type ∧
            ¬ List.Lex (· < ·) h.version_parts r.version_parts))
    ∧ is_abi_compatible
        { compiler := "gcc", library := "libstdc++", version_parts := [3, 4, 0], abi_type := "cxx11_abi" }
        { compiler := "gcc", library := "libstdc++", version_parts := [3, 4], abi_type := "cxx11_abi" } = true
    ∧ is_abi_compatible
        { compiler := "gcc", library := "libstdc++", version_parts := [3, 4], abi_type := "cxx11_abi" }
        { compiler := "gcc", library := "libstdc++", version_parts := [3, 4], abi_type := "cxx11_abi" } = true
    ∧ is_abi_compatible
        { compiler := "gcc", library := "libstdc++", version_parts := [3, 3, 9], abi_type := "cxx11_abi" }
        { compiler := "gcc", library := "libstdc++", version_parts := [3, 4], abi_type := "cxx11_abi" } = false := by
  refine ⟨?_, by decide, by decide, by decide⟩
  intro h r
  unfold is_abi_compatible
  constructor
  · intro hcompat
    split at hcompat
    · exact absurd hcompat (by simp)
    · next hcond =>
      push_neg at hcond
      exact ⟨hcond.1, hcond.2.1, hcond.2.2, (versionLoop_eq_true_iff _ _).mp hcompat⟩
  · rintro ⟨hc, hl, ht, hge⟩
    have hcond : ¬(h.compiler ≠ r.compiler ∨ h.library ≠ r.library ∨ h.abi_type ≠ r.abi_type) := by
      push_neg
      exact ⟨hc, hl, ht⟩
    rw [if_neg hcond]
    exact (versionLoop_eq_true_iff _ _).mpr hge

/-- **C10.** `parse_abi_signature` succeeds exactly when the input splits
on `'-'` (with `std::getline` semantics) into exactly four parts and
`std::stoi` accepts every `'.'`-separated component of the third part; a
component that merely begins with digits, such as `"3a"`, is accepted and
truncated to its leading integer. -/
theorem claim_C10_abi_parse_domain :
    (∀ s : String,
        (parse_abi_signature s).isSome = true ↔
          ((cppGetlineSplit '-' s).length = 4 ∧
            ∀ c ∈ cppGetlineSplit '.' ((cppGetlineSplit '-' s).getD 2 ""),
              (cppStoi c).isSome = true))
    ∧ parse_abi_signature "gcc-libstdc++-3a.4-cxx11_abi" =
        some { compiler := "gcc", library := "libstdc++", version_parts := [3, 4],
               abi_type := "cxx11_abi" } := by
  constructor
  · intro s
    unfold parse_abi_signature
    rcases hxs : cppGetlineSplit '-' s with - | ⟨a, - | ⟨b, - | ⟨c, - | ⟨d, - | ⟨e, tail⟩⟩⟩⟩⟩
    · simp [parseAbiFromParts]
    · simp [parseAbiFromParts]
    · simp [parseAbiFromParts]
    · simp [parseAbiFromParts]
    · have hgetD : ([a, b, c, d] : List String).getD 2 "" = c := rfl
      rw [hgetD]
      simp only [parseAbiFromParts]
      cases hst : stoiList (cppGetlineSplit '.' c) with
      | none =>
        have hiff := stoiList_isSome_iff (cppGetlineSplit '.' c)
        rw [hst] at hiff
        simp only [Option.isSome_none] at hiff
        simp only [Option.isSome_none]
        constructor
        · intro hfalse
          exact absurd hfalse (by simp)
        · rintro ⟨-, hall⟩
          have := hiff.mpr hall
          exact absurd this (by simp)
      | some vs =>
        have hiff := stoiList_isSome_iff (cppGetlineSplit '.' c)
        rw [hst] at hiff
        simp only [Option.isSome_some, true_iff] at hiff
        simp only [Option.isSome_some]
        constructor
        · intro _
          exact ⟨rfl, hiff⟩
        · intro _
          trivial
    · simp only [parseAbiFromParts]
      constructor
      · intro hfalse
        simp at hfalse
      · rintro ⟨hlen, -⟩
        simp at hlen
  · decide

/-! ## Bundle manifest data model (`bundle.h` / `manifest.yaml`) -/

/-- One entry of a plugin's `binaries` sequence in `manifest.yaml`
(platform triplet, ABI signature, architecture, relative path). -/
structure ManifestBinary where
  triplet : String
  abi_signature : String
  arch : String
  path : String
  deriving Repr, DecidableEq

/-- One entry of `bundlePlugins`.  `sdist` is the optional
source-distribution path; `binaries = none` models a plugin entry whose
`binaries` section is absent from the YAML map. -/
structure ManifestPlugin where
  name : String
  sdist : Option String
  binaries : Option (List ManifestBinary)
  deriving Repr, DecidableEq

/-- The optional `bundleSignature` manifest section.  The C++ reads the
`signature` field with `as<std::string>("")`, so a missing or empty field
both appear as `""`. -/
structure SignatureSection where
  signature : String
  keyFingerprint : Option String
  deriving Repr, DecidableEq

/-- The parsed `manifest.yaml`.  `bundlePlugins = none` models a manifest
without a `bundlePlugins` key (YAML iteration over a missing node yields
nothing). -/
structure Manifest where
  bundleName : String
  bundleVersion : String
  bundleAuthor : String
  bundleComment : String
  bundledOn : String
  bundleSignature : Option SignatureSection
  bundlePlugins : Option (List ManifestPlugin)
  deriving Repr, DecidableEq

/-! ## Canonical signed form (`reconstruct_and_verify`) -/

/-- The files one plugin entry contributes to the canonical form: the
`sdist` path when present, then every binary path, in manifest order. -/
def pluginFiles (p : ManifestPlugin) : List String :=
  (match p.sdist with
   | some s => [s]
   | none => []) ++ (p.binaries.getD []).map (·.path)

/-- Step 1 of `reconstruct_and_verify`: every file referenced by the
manifest, in manifest order. -/
def referencedFiles (plugins : List ManifestPlugin) : List String :=
  (plugins.map pluginFiles).flatten

/-- `std::map<std::string, std::string>` assignment `m[k] = v`, modelled
on an association list sorted strictly ascending by key. -/
def mapInsert (k v : String) : List (String × String) → List (String × String)
  | [] => [(k, v)]
  | (k0, v0) :: rest =>
    if k < k0 then (k, v) :: (k0, v0) :: rest
    else if k = k0 then (k, v) :: rest
    else (k0, v0) :: mapInsert k v rest

inductive ReconErr where
  | missingFile
  deriving Repr, DecidableEq

/-- Mirror of `reconstruct_and_verify` in `bundle.cpp`: for every file
referenced by the manifest compute `"sha256:" ++ digest`, store it in a
`std::map` keyed by the relative path, and join the map entries as
`"<path>:<checksum>"` lines separated by a single line feed (separator
written before every element except the first, so there is no trailing
line feed).  A referenced file that does not exist on disk raises an
error.  `fileExists` and `digest` abstract the filesystem and
`calculate_sha256`. -/
def reconstruct_and_verify (fileExists : String → Bool) (digest : String → String)
    (plugins : List ManifestPlugin) : Except ReconErr String :=
  if (referencedFiles plugins).all fileExists then
    .ok (String.intercalate "\n"
      (((referencedFiles plugins).foldl
          (fun acc p => mapInsert p ("sha256:" ++ digest p) acc) []).map
        (fun kv => kv.1 ++ ":" ++ kv.2)))
  else .error .missingFile

/-! Properties of the map fold used by the canonical form. -/

theorem mapInsert_mem_keys (k v k0 : String) :
    ∀ l : List (String × String),
      k0 ∈ (mapInsert k v l).map Prod.fst ↔ k0 = k ∨ k0 ∈ l.map Prod.fst := by
  intro l
  induction l with
  | nil =>
    simp only [mapInsert, List.map_cons, List.map_nil, List.mem_singleton,
      List.not_mem_nil, or_false]
  | cons e rest ih =>
    by_cases h1 : k < e.1
    · simp only [mapInsert, if_pos h1, List.map_cons, List.mem_cons]
    · by_cases h2 : k = e.1
      · simp only [mapInsert, if_neg h1, if_pos h2, List.map_cons, List.mem_cons]
        subst h2
        tauto
      · simp only [mapInsert, if_neg h1, if_neg h2, List.map_cons, List.mem_cons]
        rw [ih]
        tauto

theorem mapInsert_pairwise (k v : String) :
    ∀ l : List (String × String),
      (l.map Prod.fst).Pairwise (· < ·) →
      ((mapInsert k v l).map Prod.fst).Pairwise (· < ·) := by
  intro l
  induction l with
  | nil =>
    intro _
    simp [mapInsert]
  | cons e rest ih =>
    intro hp
    rw [List.map_cons, List.pairwise_cons] at hp
    by_cases h1 : k < e.1
    · simp only [mapInsert, if_pos h1, List.map_cons, List.pairwise_cons]
      refine ⟨?_, hp.1, hp.2⟩
      intro y hy
      rcases List.mem_cons.mp hy with rfl | hy0
      · exact h1
      · exact lt_trans h1 (hp.1 y hy0)
    · by_cases h2 : k = e.1
      · simp only [mapInsert, if_neg h1, if_pos h2, List.map_cons, List.pairwise_cons]
        subst h2
        exact ⟨hp.1, hp.2⟩
      · simp only [mapInsert, if_neg h1, if_neg h2, List.map_cons, List.pairwise_cons]
        refine ⟨?_, ih hp.2⟩
        intro y hy
        rcases (mapInsert_mem_keys k v y rest).mp hy with rfl | hy0
        · rcases lt_trichotomy y e.1 with hc | hc | hc
          · exact absurd hc h1
          · exact absurd hc h2
          · exact hc
        · exact hp.1 y hy0

theorem mapInsert_values (f : String → String) (k : String) :
    ∀ l : List (String × String),
      (∀ e ∈ l, e.2 = f e.1) →
      ∀ e ∈ mapInsert k (f k) l, e.2 = f e.1 := by
  intro l
  induction l with
  | nil =>
    intro _ e he
    simp only [mapInsert, List.mem_singleton] at he
    subst he
    rfl
  | cons e0 rest ih =>
    intro hv e he
    by_cases h1 : k < e0.1
    · simp only [mapInsert, if_pos h1, List.mem_cons] at he
      rcases he with rfl | rfl | he
      · rfl
      · exact hv e0 (List.mem_cons_self _ _)
      · exact hv e (List.mem_cons_of_mem _ he)
    · by_cases h2 : k = e0.1
      · simp only [mapInsert, if_neg h1, if_pos h2, List.mem_cons] at he
        rcases he with rfl | he
        · rfl
        · exact hv e (List.mem_cons_of_mem _ he)
      · simp only [mapInsert, if_neg h1, if_neg h2, List.mem_cons] at he
        rcases he with rfl | he
        · exact hv _ (List.mem_cons_self _ _)
        · exact ih (fun x hx => hv x (List.mem_cons_of_mem _ hx)) e he

theorem foldInsert_props (f : String → String) :
    ∀ (files : List String) (acc : List (String × String)),
      (acc.map Prod.fst).Pairwise (· < ·) →
      (∀ e ∈ acc, e.2 = f e.1) →
      (((files.foldl (fun a p => mapInsert p (f p) a) acc).map Prod.fst).Pairwise (· < ·)
        ∧ (∀ e ∈ files.foldl (fun a p => mapInsert p (f p) a) acc, e.2 = f e.1)
        ∧ (∀ k, k ∈ (files.foldl (fun a p => mapInsert p (f p) a) acc).map Prod.fst ↔
            k ∈ files ∨ k ∈ acc.map Prod.fst)) := by
  intro files
  induction files with
  | nil =>
    intro acc hp hv
    refine ⟨hp, hv, ?_⟩
    intro k
    simp
  | cons p rest ih =>
    intro acc hp hv
    simp only [List.foldl_cons]
    have hp' := mapInsert_pairwise p (f p) acc hp
    have hv' := mapInsert_values f p acc hv
    obtain ⟨r1, r2, r3⟩ := ih (mapInsert p (f p) acc) hp' hv'
    refine ⟨r1, r2, ?_⟩
    intro k
    rw [r3 k, mapInsert_mem_keys]
    simp only [List.mem_cons]
    tauto

theorem map_line_eq (f : String → String) :
    ∀ m : List (String × String),
      (∀ e ∈ m, e.2 = f e.1) →
      m.map (fun kv => kv.1 ++ ":" ++ kv.2) = (m.map Prod.fst).map (fun p => p ++ ":" ++ f p) := by
  intro m
  induction m with
  | nil =>
    intro _
    rfl
  | cons e rest ih =>
    intro hv
    simp only [List.map_cons]
    rw [hv e (List.mem_cons_self _ _), ih (fun x hx => hv x (List.mem_cons_of_mem _ hx))]

theorem line_append_eq (p d : String) :
    p ++ ":" ++ ("sha256:" ++ d) = p ++ ":sha256:" ++ d := by
  show (p ++ ":") ++ ("sha256:" ++ d) = (p ++ ":sha256:") ++ d
  rw [← String.append_assoc]
  congr 1
  rw [String.append_assoc]
  congr 1

/-! ## Bundle verification (`PluginBundle::verify_bundle`) -/

/-- Value of one hexadecimal character, as in the `hex_char_to_val`
lambda of `hex_string_to_bytes` (`none` models the throw). -/
def hexCharVal (c : Char) : Option Nat :=
  if c.isDigit then some (c.toNat - '0'.toNat)
  else if 'a' ≤ c ∧ c ≤ 'f' then some (c.toNat - 'a'.toNat + 10)
  else if 'A' ≤ c ∧ c ≤ 'F' then some (c.toNat - 'A'.toNat + 10)
  else none

def hexPairsToBytes : List Char → Option (List Nat)
  | [] => some []
  | [_] => none
  | c1 :: c2 :: rest =>
    match hexCharVal c1, hexCharVal c2 with
    | some hi, some lo => (hexPairsToBytes rest).map (fun bs => (hi * 16 + lo) :: bs)
    | _, _ => none

/-- Mirror of `hex_string_to_bytes` in `bundle.cpp`: even length required,
then each character pair becomes one byte. -/
def hex_string_to_bytes (hex : String) : Option (List Nat) :=
  if hex.length % 2 ≠ 0 then none
  else hexPairsToBytes hex.data

/-- A public key from the host keyring.  `valid = false` models
`key.get() == nullptr` after construction. -/
structure PublicKey where
  fingerprint : String
  valid : Bool
  deriving Repr, DecidableEq

/-- The environment `verify_bundle` runs against: the filesystem
(existence and SHA-256 of unpacked files), the host keyring
(`none` models a missing `~/.config/fourdst/keys` directory) and
`fourdst::crypt::verify_signature` (`none` models a thrown crypto
error). -/
structure VerifyEnv where
  fileExists : String → Bool
  digest : String → String
  keyring : Option (List PublicKey)
  verifySig : PublicKey → String → List Nat → Option Bool

/-- Observable outcome of `verify_bundle`: the final `m_signed` and
`m_trusted` members, the message actually handed to `verify_signature`
(when that call was reached), and the returned boolean
`m_trusted && m_signed`. -/
structure VerifyResult where
  isSigned : Bool
  isTrusted : Bool
  verifiedMessage : Option String
  retVal : Bool
  deriving Repr, DecidableEq

/-- Exceptions that escape `verify_bundle` (thrown before its
`try` block). -/
inductive VerifyThrow where
  | emptySignature
  | badHex
  | missingFingerprint
  deriving Repr, DecidableEq

/-- Outcome of the `try` block inside `verify_bundle`. -/
inductive TryOutcome where
  | notReached
  | cryptoThrew (msg : String)
  | verifiedOk (b : Bool) (msg : String)
  deriving Repr, DecidableEq

/-- The `try` block of `verify_bundle`: reconstruct the canonical string,
enumerate the host keyring, pick the last key whose fingerprint equals
the declared one, check the key object, call `verify_signature`.
`.notReached` models any exception thrown before the
`verify_signature` call. -/
def verifyTryBody (env : VerifyEnv) (md : Manifest) (fp : String) (sigBytes : List Nat) :
    TryOutcome :=
  match reconstruct_and_verify env.fileExists env.digest (md.bundlePlugins.getD []) with
  | .error _ => .notReached
  | .ok canonical =>
    match env.keyring with
    | none => .notReached
    | some keys =>
      match (keys.filter (fun k => k.fingerprint = fp)).getLast? with
      | none => .notReached
      | some key =>
        if key.valid then
          match env.verifySig key canonical sigBytes with
          | none => .cryptoThrew canonical
          | some b => .verifiedOk b canonical
        else .notReached

/-- Mirror of `PluginBundle::verify_bundle`: no signature section leaves
`signed = trusted = false` and returns `false`; a malformed section
throws; a failed in-`try` verification step is caught (logged) leaving
`signed = true`, `trusted = false`; `verify_signature` returning `false`
resets both flags; only a successful verification returns `true`. -/
def verify_bundle (env : VerifyEnv) (md : Manifest) : Except VerifyThrow VerifyResult :=
  match md.bundleSignature with
  | none =>
    .ok { isSigned := false, isTrusted := false, verifiedMessage := none, retVal := false }
  | some sec =>
    if sec.signature = "" then .error .emptySignature
    else
      match hex_string_to_bytes sec.signature with
      | none => .error .badHex
      | some sigBytes =>
        match sec.keyFingerprint with
        | none => .error .missingFingerprint
        | some fp =>
          if sigBytes.isEmpty then
            .ok { isSigned := true, isTrusted := false, verifiedMessage := none, retVal := false }
          else
            match verifyTryBody env md fp sigBytes with
            | .notReached =>
              .ok { isSigned := true, isTrusted := false, verifiedMessage := none,
                    retVal := false }
            | .cryptoThrew m =>
              .ok { isSigned := true, isTrusted := false, verifiedMessage := some m,
                    retVal := false }
            | .verifiedOk true m =>
              .ok { isSigned := true, isTrusted := true, verifiedMessage := some m,
                    retVal := true }
            | .verifiedOk false m =>
              .ok { isSigned := false, isTrusted := false, verifiedMessage := some m,
                    retVal := false }

/-- **C5.** The canonical signed form is one line
`"<relative-path>:sha256:<hexdigest>"` per file referenced by the
manifest (each sdist path present plus every binary path), sorted by
relative path strictly ascending, joined by a single line feed with no
trailing line feed; and whenever `verify_bundle` reaches its
`verify_signature` call, the message passed is exactly this string. -/
theorem claim_C5_canonical_form (fileExists : String → Bool) (digest : String → String)
    (plugins : List ManifestPlugin)
    (hall : ∀ p ∈ referencedFiles plugins, fileExists p = true) :
    ∃ ps : List String,
      reconstruct_and_verify fileExists digest plugins =
        .ok (String.intercalate "\n" (ps.map (fun p => p ++ ":sha256:" ++ digest p)))
      ∧ ps.Pairwise (· < ·)
      ∧ (∀ p, p ∈ ps ↔ p ∈ referencedFiles plugins)
      ∧ (∀ (env : VerifyEnv) (md : Manifest) (r : VerifyResult),
          env.fileExists = fileExists → env.digest = digest →
          md.bundlePlugins.getD [] = plugins →
          verify_bundle env md = .ok r →
          ∀ m, r.verifiedMessage = some m →
            m = String.intercalate "\n" (ps.map (fun p => p ++ ":sha256:" ++ digest p))) := by
  classical
  set f : String → String := fun p => "sha256:" ++ digest p with hf
  set files := referencedFiles plugins with hfiles
  set m0 := files.foldl (fun a p => mapInsert p (f p) a) [] with hm0
  obtain ⟨hsort, hvals, hmem⟩ := foldInsert_props f files [] (by simp) (by simp)
  refine ⟨m0.map Prod.fst, ?_, hsort, ?_, ?_⟩
  · have hcond : files.all fileExists = true := by
      rw [List.all_eq_true]
      intro p hp
      exact hall p hp
    unfold reconstruct_and_verify
    rw [← hfiles, if_pos hcond, ← hm0]
    congr 1
    rw [map_line_eq f m0 hvals]
    congr 1
    apply List.map_congr_left
    intro p _
    exact line_append_eq p (digest p)
  · intro p
    rw [hmem p]
    simp
  · intro env md r he1 he2 he3 hvb m hmsg
    have hrecon : reconstruct_and_verify env.fileExists env.digest (md.bundlePlugins.getD []) =
        .ok (String.intercalate "\n" ((m0.map Prod.fst).map
          (fun p => p ++ ":sha256:" ++ digest p))) := by
      rw [he1, he2, he3]
      have hcond : files.all fileExists = true := by
        rw [List.all_eq_true]
        intro p hp
        exact hall p hp
      unfold reconstruct_and_verify
      rw [← hfiles, if_pos hcond, ← hm0]
      congr 1
      rw [map_line_eq f m0 hvals]
      congr 1
      apply List.map_congr_left
      intro p _
      exact line_append_eq p (digest p)
    cases hsig : md.bundleSignature with
    | none =>
      simp only [verify_bundle, hsig] at hvb
      injection hvb with hr
      subst hr
      exact Option.noConfusion hmsg
    | some sec =>
      simp only [verify_bundle, hsig] at hvb
      by_cases hempty : sec.signature = ""
      · rw [if_pos hempty] at hvb
        exact Except.noConfusion hvb
      · rw [if_neg hempty] at hvb
        cases hhex : hex_string_to_bytes sec.signature with
        | none =>
          simp only [hhex] at hvb
          exact Except.noConfusion hvb
        | some sigBytes =>
          simp only [hhex] at hvb
          cases hfp : sec.keyFingerprint with
          | none =>
            simp only [hfp] at hvb
            exact Except.noConfusion hvb
          | some fp =>
            simp only [hfp] at hvb
            by_cases hbe : sigBytes.isEmpty
            · rw [if_pos hbe] at hvb
              injection hvb with hr
              subst hr
              exact Option.noConfusion hmsg
            · rw [if_neg hbe] at hvb
              simp only [verifyTryBody, hrecon] at hvb
              cases hkr : env.keyring with
              | none =>
                simp only [hkr] at hvb
                injection hvb with hr
                subst hr
                exact Option.noConfusion hmsg
              | some keys =>
                simp only [hkr] at hvb
                cases hkey : (keys.filter (fun k => k.fingerprint = fp)).getLast? with
                | none =>
                  simp only [hkey] at hvb
                  injection hvb with hr
                  subst hr
                  exact Option.noConfusion hmsg
                | some key =>
                  simp only [hkey] at hvb
                  by_cases hvalid : key.valid
                  · rw [if_pos hvalid] at hvb
                    cases hvs : env.verifySig key (String.intercalate "\n"
                        ((m0.map Prod.fst).map (fun p => p ++ ":sha256:" ++ digest p)))
                        sigBytes with
                    | none =>
                      simp only [hvs] at hvb
                      injection hvb with hr
                      subst hr
                      simp only [Option.some_inj] at hmsg
                      exact hmsg.symm
                    | some b =>
                      simp only [hvs] at hvb
                      cases b
                      · injection hvb with hr
                        subst hr
                        simp only [Option.some_inj] at hmsg
                        exact hmsg.symm
                      · injection hvb with hr
                        subst hr
                        simp only [Option.some_inj] at hmsg
                        exact hmsg.symm
                  · rw [if_neg hvalid] at hvb
                    injection hvb with hr
                    subst hr
                    exact Option.noConfusion hmsg

/-! ## Variant selection (`PluginBundle::parse_manifest`) -/

/-- Mirror of the C++ `enum class PluginLoadPolicy`. -/
inductive PluginLoadPolicy where
  | allPluginsAbiCompatible
  | anyPluginsAbiCompatible
  deriving Repr, DecidableEq

/-- Mirror of the C++ `struct PluginPlatforms`. -/
structure PluginPlatforms where
  name : String
  triplet : String
  abiSignature : String
  architecture : String
  path : String
  deriving Repr, DecidableEq

/-- Discriminated failure kinds of `parse_manifest` (each is a
`std::runtime_error` in the C++). -/
inductive ParseErr where
  | verifyThrow (e : VerifyThrow)
  | notTrusted
  | noPluginsSection
  | missingBinaries
  | hostAbiUnparseable
  | pluginAbiUnparseable
  | abiIncompatible
  deriving Repr, DecidableEq

/-- The flat `bundledPlugins` vector built by the first loop of
`parse_manifest`: one `PluginPlatforms` record per binary entry, in
manifest order. -/
def bundledOf (plugins : List ManifestPlugin) : List PluginPlatforms :=
  (plugins.map (fun p => (p.binaries.getD []).map
    (fun b => PluginPlatforms.mk p.name b.triplet b.abi_signature b.arch b.path))).flatten

/-- `total_plugins_arch_independent`: the number of plugins with at least
one binary entry (each plugin counted once, via `counted_for_arch`,
regardless of triplet). -/
def total_plugins_arch_independent (plugins : List ManifestPlugin) : Nat :=
  (plugins.filter (fun p => !(p.binaries.getD []).isEmpty)).length

/-- Whether one binary entry passes the ABI check against the host
signature (its own signature must parse first). -/
def abiAccepts (hostSig : ABISignature) (b : PluginPlatforms) : Bool :=
  match parse_abi_signature b.abiSignature with
  | some s => is_abi_compatible hostSig s
  | none => false

/-- The `goodPlugins` vector of `parse_manifest`: binaries matching the
host triplet whose ABI signature parses and is compatible. -/
def goodPluginsOf (hostSig : ABISignature) (hostTriplet : String)
    (bundled : List PluginPlatforms) : List PluginPlatforms :=
  bundled.filter (fun b => b.triplet == hostTriplet && abiAccepts hostSig b)

/-- The selection half of `parse_manifest` (lines 417-501 of
`bundle.cpp`): build the flat binary list (a plugin without a `binaries`
section is fatal), parse the host ABI signature, drop binaries whose
triplet differs from the host, fail on a triplet-matching binary whose
ABI signature does not parse, keep the compatible ones, then compare the
number of kept binaries against `total_plugins_arch_independent`
according to the load policy. -/
def selectVariants (hostAbi hostTriplet : String) (policy : PluginLoadPolicy)
    (plugins : List ManifestPlugin) : Except ParseErr (List PluginPlatforms) :=
  if plugins.all (fun p => p.binaries.isSome) then
    match parse_abi_signature hostAbi with
    | none => .error .hostAbiUnparseable
    | some hostSig =>
      if ((bundledOf plugins).filter (fun b => b.triplet == hostTriplet)).all
          (fun b => (parse_abi_signature b.abiSignature).isSome) then
        if (goodPluginsOf hostSig hostTriplet (bundledOf plugins)).length ≠
            total_plugins_arch_independent plugins then
          match policy with
          | .allPluginsAbiCompatible => .error .abiIncompatible
          | .anyPluginsAbiCompatible =>
            if (goodPluginsOf hostSig hostTriplet (bundledOf plugins)).length = 0 then
              .error .abiIncompatible
            else .ok (goodPluginsOf hostSig hostTriplet (bundledOf plugins))
        else .ok (goodPluginsOf hostSig hostTriplet (bundledOf plugins))
      else .error .pluginAbiUnparseable
  else .error .missingBinaries

/-- Mirror of `PluginBundle::parse_manifest`: read the bundle fields,
verify the bundle (a `false` return is fatal), require `bundlePlugins`,
then select variants. -/
def parse_manifest (env : VerifyEnv) (hostAbi hostTriplet : String)
    (policy : PluginLoadPolicy) (md : Manifest) : Except ParseErr (List PluginPlatforms) :=
  match verify_bundle env md with
  | .error e => .error (.verifyThrow e)
  | .ok r =>
    if r.retVal then
      match md.bundlePlugins with
      | none => .error .noPluginsSection
      | some plugins => selectVariants hostAbi hostTriplet policy plugins
    else .error .notTrusted

/-- The set `C` of the specification: unique plugin names with at least
one accepted binary. -/
def acceptedNames (hostSig : ABISignature) (hostTriplet : String)
    (bundled : List PluginPlatforms) : List String :=
  ((goodPluginsOf hostSig hostTriplet bundled).map (·.name)).dedup

/-- The set `T` of the specification: unique plugin names that appeared
at all for the host triplet. -/
def appearedNames (hostTriplet : String) (bundled : List PluginPlatforms) : List String :=
  ((bundled.filter (fun b => b.triplet == hostTriplet)).map (·.name)).dedup

/-! Concrete fixtures shared by the claim instances below. -/

def hostAbi0 : String := "gcc-libstdc++-3.4-cxx11_abi"

def hostTriplet0 : String := "x86_64-linux"

def hostSig0 : ABISignature :=
  { compiler := "gcc", library := "libstdc++", version_parts := [3, 4],
    abi_type := "cxx11_abi" }

def binA : ManifestBinary :=
  { triplet := "x86_64-linux", abi_signature := "gcc-libstdc++-3.4-cxx11_abi",
    arch := "x86_64", path := "plugins/a.so" }

def binB : ManifestBinary :=
  { triplet := "x86_64-linux", abi_signature := "gcc-libstdc++-3.4-cxx11_abi",
    arch := "x86_64", path := "plugins/b.so" }

def pluginsOneBin : List ManifestPlugin :=
  [{ name := "p", sdist := none, binaries := some [binA] }]

def pluginsTwoBin : List ManifestPlugin :=
  [{ name := "p", sdist := none, binaries := some [binA, binB] }]

def envUnsigned : VerifyEnv :=
  { fileExists := fun _ => true, digest := fun _ => "00",
    keyring := none, verifySig := fun _ _ _ => some false }

def manifestUnsigned : Manifest :=
  { bundleName := "demo", bundleVersion := "0.1.0", bundleAuthor := "a",
    bundleComment := "c", bundledOn := "2024-01-01",
    bundleSignature := none, bundlePlugins := some pluginsOneBin }

/-- **C1.** The claim says an unsigned bundle proceeds with
`signed = trusted = false`; the code instead makes `verify_bundle` return
`false` for every manifest without a `bundleSignature` section, and
`parse_manifest` then throws before variant selection, so construction of
an unsigned bundle always fails.  Evaluated here at a concrete unsigned
bundle whose single binary matches the host. -/
theorem claim_C1_unsigned_bundle_fails :
    verify_bundle envUnsigned manifestUnsigned =
      .ok { isSigned := false, isTrusted := false, verifiedMessage := none, retVal := false }
    ∧ parse_manifest envUnsigned hostAbi0 hostTriplet0
        PluginLoadPolicy.allPluginsAbiCompatible manifestUnsigned =
      .error .notTrusted :=
  ⟨rfl, rfl⟩

/-- **C2, counterexample.** One plugin with two binaries, both matching
the host triplet and ABI-compatible: the spec sets `C` and `T` are equal
(both `{"p"}`), yet the code fails under `ALL_PLUGINS_ABI_COMPATIBLE`
because it compares the number of accepted binaries (2) against the
number of plugins with binaries (1). -/
theorem claim_C2_counterexample :
    acceptedNames hostSig0 hostTriplet0 (bundledOf pluginsTwoBin) =
      appearedNames hostTriplet0 (bundledOf pluginsTwoBin)
    ∧ selectVariants hostAbi0 hostTriplet0 PluginLoadPolicy.allPluginsAbiCompatible
        pluginsTwoBin = .error .abiIncompatible :=
  ⟨rfl, rfl⟩

/-- **C2, amended.** Assuming every plugin has a `binaries` section, the
host ABI signature parses, and every triplet-matching binary signature
parses, variant selection succeeds exactly when the number of accepted
binaries equals the number of plugins that have at least one binary
entry (for any triplet), or the policy is `ANY_PLUGINS_ABI_COMPATIBLE`
and at least one binary was accepted. -/
theorem claim_C2_selection_policy (hostAbi hostTriplet : String) (policy : PluginLoadPolicy)
    (plugins : List ManifestPlugin) (hostSig : ABISignature)
    (hbin : plugins.all (fun p => p.binaries.isSome) = true)
    (hhost : parse_abi_signature hostAbi = some hostSig)
    (hparse : ((bundledOf plugins).filter (fun b => b.triplet == hostTriplet)).all
        (fun b => (parse_abi_signature b.abiSignature).isSome) = true) :
    (∃ res, selectVariants hostAbi hostTriplet policy plugins = .ok res) ↔
      ((goodPluginsOf hostSig hostTriplet (bundledOf plugins)).length =
          total_plugins_arch_independent plugins
        ∨ (policy = PluginLoadPolicy.anyPluginsAbiCompatible ∧
            1 ≤ (goodPluginsOf hostSig hostTriplet (bundledOf plugins)).length)) := by
  unfold selectVariants
  rw [if_pos hbin]
  simp only [hhost]
  rw [if_pos hparse]
  by_cases hne : (goodPluginsOf hostSig hostTriplet (bundledOf plugins)).length =
      total_plugins_arch_independent plugins
  · rw [if_neg (by omega)]
    constructor
    · intro _
      exact Or.inl hne
    · intro _
      exact ⟨_, rfl⟩
  · rw [if_pos hne]
    cases policy with
    | allPluginsAbiCompatible =>
      constructor
      · rintro ⟨res, hres⟩
        exact Except.noConfusion hres
      · rintro (h | ⟨hpol, -⟩)
        · exact absurd h hne
        · exact PluginLoadPolicy.noConfusion hpol
    | anyPluginsAbiCompatible =>
      by_cases hz : (goodPluginsOf hostSig hostTriplet (bundledOf plugins)).length = 0
      · rw [if_pos hz]
        constructor
        · rintro ⟨res, hres⟩
          exact Except.noConfusion hres
        · rintro (h | ⟨-, hge⟩)
          · exact absurd h hne
          · omega
      · rw [if_neg hz]
        constructor
        · intro _
          exact Or.inr ⟨rfl, by omega⟩
        · intro _
          exact ⟨_, rfl⟩

/-- Witness for the amended C2 at a concrete instance: one plugin with a
single compatible binary under `ALL_PLUGINS_ABI_COMPATIBLE`. -/
theorem claim_C2_selection_policy_witness :
    (pluginsOneBin.all (fun p => p.binaries.isSome) = true
      ∧ parse_abi_signature hostAbi0 = some hostSig0
      ∧ ((bundledOf pluginsOneBin).filter (fun b => b.triplet == hostTriplet0)).all
          (fun b => (parse_abi_signature b.abiSignature).isSome) = true)
    ∧ ((∃ res, selectVariants hostAbi0 hostTriplet0
          PluginLoadPolicy.allPluginsAbiCompatible pluginsOneBin = .ok res) ↔
        ((goodPluginsOf hostSig0 hostTriplet0 (bundledOf pluginsOneBin)).length =
            total_plugins_arch_independent pluginsOneBin
          ∨ (PluginLoadPolicy.allPluginsAbiCompatible =
                PluginLoadPolicy.anyPluginsAbiCompatible ∧
              1 ≤ (goodPluginsOf hostSig0 hostTriplet0 (bundledOf pluginsOneBin)).length))) :=
  ⟨⟨rfl, rfl, rfl⟩,
   claim_C2_selection_policy hostAbi0 hostTriplet0 PluginLoadPolicy.allPluginsAbiCompatible
     pluginsOneBin hostSig0 rfl rfl rfl⟩

/-! ## C3: exceptions during verification -/

def sigSec3 : SignatureSection :=
  { signature := "ab", keyFingerprint := some "sha256:00" }

/-- An environment whose keyring directory is absent, so the `try` block
of `verify_bundle` throws before reaching `verify_signature`. -/
def envNoKeyring : VerifyEnv :=
  { fileExists := fun _ => true, digest := fun _ => "00",
    keyring := none, verifySig := fun _ _ _ => some true }

def manifestSigned3 : Manifest :=
  { bundleName := "demo", bundleVersion := "0.1.0", bundleAuthor := "a",
    bundleComment := "c", bundledOn := "2024-01-01",
    bundleSignature := some sigSec3, bundlePlugins := some pluginsOneBin }

/-- **C3, counterexample.** A signed bundle verified in an environment
with no keyring: the exception is caught inside `verify_bundle` (merely
logged), and the bundle ends with `isSigned = true`, not `false` as the
claim states; no exception escapes `verify_bundle` itself. -/
theorem claim_C3_counterexample :
    verify_bundle envNoKeyring manifestSigned3 =
      .ok { isSigned := true, isTrusted := false, verifiedMessage := none, retVal := false } :=
  rfl

/-- **C3, amended.** For a well-formed signature section, any exception
inside the verification `try` block (missing referenced file, absent
keyring, no key matching the declared fingerprint, invalid key object, or
a crypto fault) is caught and logged by `verify_bundle`, which leaves
`trusted = false` but `signed = true` and returns `false`; the caller
`parse_manifest` then fails with its own generic verification error, so
the original exception is not propagated. -/
theorem claim_C3_verification_exception (env : VerifyEnv) (md : Manifest)
    (sec : SignatureSection) (fp : String) (sigBytes : List Nat)
    (h1 : md.bundleSignature = some sec) (h2 : sec.signature ≠ "")
    (h3 : hex_string_to_bytes sec.signature = some sigBytes)
    (h4 : sec.keyFingerprint = some fp) (h5 : sigBytes.isEmpty = false)
    (h6 : ∀ b m, verifyTryBody env md fp sigBytes ≠ TryOutcome.verifiedOk b m) :
    ∃ r : VerifyResult, verify_bundle env md = .ok r
      ∧ r.isSigned = true ∧ r.isTrusted = false ∧ r.retVal = false
      ∧ (∀ hostAbi hostTriplet policy,
          parse_manifest env hostAbi hostTriplet policy md = .error .notTrusted) := by
  cases hto : verifyTryBody env md fp sigBytes with
  | notReached =>
    have hvb : verify_bundle env md =
        .ok { isSigned := true, isTrusted := false, verifiedMessage := none,
              retVal := false } := by
      simp only [verify_bundle, h1, h3, h4, hto]
      rw [if_neg h2, if_neg (by simp [h5])]
    refine ⟨_, hvb, rfl, rfl, rfl, ?_⟩
    intro hostAbi hostTriplet policy
    simp [parse_manifest, hvb]
  | cryptoThrew m =>
    have hvb : verify_bundle env md =
        .ok { isSigned := true, isTrusted := false, verifiedMessage := some m,
              retVal := false } := by
      simp only [verify_bundle, h1, h3, h4, hto]
      rw [if_neg h2, if_neg (by simp [h5])]
    refine ⟨_, hvb, rfl, rfl, rfl, ?_⟩
    intro hostAbi hostTriplet policy
    simp [parse_manifest, hvb]
  | verifiedOk b m =>
    exact absurd hto (h6 b m)

/-- Witness for the amended C3: the concrete no-keyring environment and
signed manifest used in the counterexample satisfy every hypothesis. -/
theorem claim_C3_verification_exception_witness :
    (manifestSigned3.bundleSignature = some sigSec3
      ∧ sigSec3.signature ≠ ""
      ∧ hex_string_to_bytes sigSec3.signature = some [171]
      ∧ sigSec3.keyFingerprint = some "sha256:00"
      ∧ ([171] : List Nat).isEmpty = false)
    ∧ (∃ r : VerifyResult, verify_bundle envNoKeyring manifestSigned3 = .ok r
        ∧ r.isSigned = true ∧ r.isTrusted = false ∧ r.retVal = false
        ∧ (∀ hostAbi hostTriplet policy,
            parse_manifest envNoKeyring hostAbi hostTriplet policy manifestSigned3 =
              .error .notTrusted)) :=
  ⟨⟨rfl, by decide, by decide, rfl, rfl⟩,
   claim_C3_verification_exception envNoKeyring manifestSigned3 sigSec3 "sha256:00" [171]
     rfl (by decide) (by decide) rfl rfl
     (fun b m h => TryOutcome.noConfusion h)⟩

/-! ## C5 witness fixtures -/

def feW5 : String → Bool := fun _ => true

def dgW5 : String → String := fun _ => "0011"

def pluginsW5 : List ManifestPlugin :=
  [{ name := "p", sdist := some "src/p.tar.gz", binaries := some [binB, binA] }]

/-- Witness for C5 at a concrete two-binary, one-sdist bundle whose
manifest order differs from the sorted order. -/
theorem claim_C5_canonical_form_witness :
    (∀ p ∈ referencedFiles pluginsW5, feW5 p = true)
    ∧ (∃ ps : List String,
        reconstruct_and_verify feW5 dgW5 pluginsW5 =
          .ok (String.intercalate "\n" (ps.map (fun p => p ++ ":sha256:" ++ dgW5 p)))
        ∧ ps.Pairwise (· < ·)
        ∧ (∀ p, p ∈ ps ↔ p ∈ referencedFiles pluginsW5)
        ∧ (∀ (env : VerifyEnv) (md : Manifest) (r : VerifyResult),
            env.fileExists = feW5 → env.digest = dgW5 →
            md.bundlePlugins.getD [] = pluginsW5 →
            verify_bundle env md = .ok r →
            ∀ m, r.verifiedMessage = some m →
              m = String.intercalate "\n" (ps.map (fun p => p ++ ":sha256:" ++ dgW5 p)))) :=
  ⟨by decide, claim_C5_canonical_form feW5 dgW5 pluginsW5 (by decide)⟩

/-! ## Plugin registry (`plugin_manager.cpp`)

The registry state is the `std::map<std::string, PluginHandle>` of the
PIMPL struct, modelled as an association list keyed by plugin name.
Dynamic libraries are abstracted by a map from path to a `LibSpec`
describing what `dlopen`/`dlsym`/`create_plugin` would yield there.
Side effects that the claims are about (instance destruction, library
closing) are recorded in an event list. -/

/-- A plugin instance as observable through the `IPlugin` interface:
its self-declared name and version, the interface ids it implements
(modelling which `dynamic_cast` targets succeed), and an identity used
to track it through events. -/
structure PluginInstance where
  instId : Nat
  get_name : String
  get_version : String
  typeIds : List String
  deriving Repr, DecidableEq

/-- What the dynamic loader finds at a library path: whether `dlopen`
succeeds, whether the two factory symbols resolve, and the instance
`create_plugin` returns (`none` models a null return). -/
structure LibSpec where
  opens : Bool
  hasCreateSym : Bool
  hasDestroySym : Bool
  madeInstance : Option PluginInstance
  deriving Repr, DecidableEq

/-- Mirror of `PluginManager::Impl::PluginHandle`: the owned instance and
the `dlopen` handle (identified by its path). -/
structure PluginHandle where
  inst : PluginInstance
  library_handle : String
  deriving Repr, DecidableEq

/-- The `plugins` map of the PIMPL struct. -/
abbrev RegState := List (String × PluginHandle)

/-- Observable side effects of registry operations, in order. -/
inductive Event where
  | libOpened (path : String)
  | created (instId : Nat)
  | destroyed (instId : Nat) (byLib : String)
  | libClosed (path : String)
  deriving Repr, DecidableEq

/-- The discriminated failure kinds of `PluginManager::load`. -/
inductive LoadErr where
  | libraryNotFound
  | libraryOpenFailed
  | missingFactorySymbol
  | factoryReturnedNull
  | nameCollision
  deriving Repr, DecidableEq

/-- Mirror of `PluginManager::load`: existence check, `dlopen`, both
symbol lookups, `create_plugin`, name query, collision check, insertion.
Returns the result, the new state, and the events emitted.  On the
collision path the fresh instance is destroyed with this library's
destroyer and then the library is closed, in that order. -/
def load (fs : String → Option LibSpec) (st : RegState) (path : String) :
    Except LoadErr Unit × RegState × List Event :=
  match fs path with
  | none => (.error .libraryNotFound, st, [])
  | some lib =>
    if lib.opens then
      if lib.hasCreateSym && lib.hasDestroySym then
        match lib.madeInstance with
        | none => (.error .factoryReturnedNull, st, [.libOpened path, .libClosed path])
        | some inst =>
          if (st.lookup inst.get_name).isSome then
            (.error .nameCollision, st,
             [.libOpened path, .created inst.instId,
              .destroyed inst.instId path, .libClosed path])
          else
            (.ok (), (inst.get_name, ⟨inst, path⟩) :: st,
             [.libOpened path, .created inst.instId])
      else (.error .missingFactorySymbol, st, [.libOpened path, .libClosed path])
    else (.error .libraryOpenFailed, st, [])

/-- `map.erase(it)`: remove the entry with the given key. -/
def eraseKey (n : String) : RegState → RegState
  | [] => []
  | e :: rest => if e.1 = n then rest else e :: eraseKey n rest

/-- Mirror of `PluginManager::unload`: when the name is present, reset
the owning pointer (running the instance's destroyer), then `dlclose`
the handle, then erase the map entry; otherwise do nothing. -/
def unload (st : RegState) (n : String) : RegState × List Event :=
  match st.lookup n with
  | none => (st, [])
  | some h =>
    (eraseKey n st,
     [.destroyed h.inst.instId h.library_handle, .libClosed h.library_handle])

/-- The loop of `~PluginManager`: unload each collected name in turn. -/
def teardownLoop : List String → RegState → RegState × List Event
  | [], st => (st, [])
  | n :: ns, st =>
    ((teardownLoop ns (unload st n).1).1,
     (unload st n).2 ++ (teardownLoop ns (unload st n).1).2)

/-- Mirror of `~PluginManager`: snapshot the registered names, then
unload each. -/
def registryTeardown (st : RegState) : RegState × List Event :=
  teardownLoop (st.map Prod.fst) st

/-- Mirror of `PluginManager::get_raw`: the stored instance, or null. -/
def get_raw (st : RegState) (n : String) : Option PluginInstance :=
  (st.lookup n).map (·.inst)

/-- Failure kinds of the typed accessor `PluginManager::get<T>`. -/
inductive GetErr where
  | notLoaded
  | typeMismatch
  deriving Repr, DecidableEq

/-- Mirror of `PluginManager::get<T>`: `get_raw`, null check, then the
`dynamic_cast` to the interface identified by `tid` (which succeeds
exactly when the instance implements that interface). -/
def getTyped (st : RegState) (tid : String) (n : String) : Except GetErr PluginInstance :=
  match get_raw st n with
  | none => .error .notLoaded
  | some inst => if tid ∈ inst.typeIds then .ok inst else .error .typeMismatch

/-- Modelled from the spec: `PluginManager::has` is declared in
`plugin_manager.h` but not defined in the available sources; the spec
describes it as the boolean presence test on the registry map, which
never fails. -/
def has (st : RegState) (n : String) : Bool :=
  (st.lookup n).isSome

/-! Registry helper lemmas. -/

theorem lookup_none_iff (n : String) :
    ∀ st : RegState, st.lookup n = none ↔ n ∉ st.map Prod.fst := by
  intro st
  induction st with
  | nil => simp
  | cons e rest ih =>
    simp only [List.lookup, List.map_cons, List.mem_cons]
    cases hbeq : (n == e.1) with
    | true =>
      have : n = e.1 := by
        exact eq_of_beq hbeq
      simp [this]
    | false =>
      have hne : ¬ n = e.1 := by
        intro hcontra
        rw [hcontra] at hbeq
        simp at hbeq
      simp only [ih]
      constructor
      · intro h
        exact fun hor => hor.elim hne h
      · intro h
        exact fun hm => h (Or.inr hm)

theorem lookup_cons_ne (n : String) (e : String × PluginHandle) (rest : RegState)
    (hne : n ≠ e.1) : List.lookup n (e :: rest) = List.lookup n rest := by
  simp only [List.lookup]
  cases hbeq : (n == e.1) with
  | true => exact absurd (eq_of_beq hbeq) hne
  | false => rfl

theorem lookup_eraseKey_ne (n m : String) (hne : m ≠ n) :
    ∀ st : RegState, (eraseKey n st).lookup m = st.lookup m := by
  intro st
  induction st with
  | nil => rfl
  | cons e rest ih =>
    by_cases he : e.1 = n
    · simp only [eraseKey, if_pos he]
      rw [lookup_cons_ne m e rest (by rw [he]; exact hne)]
    · simp only [eraseKey, if_neg he]
      by_cases hm : m = e.1
      · subst hm
        simp [List.lookup]
      · rw [lookup_cons_ne m e _ hm, lookup_cons_ne m e rest hm]
        exact ih

/-- Keys of reachable registry states are distinct. -/
def KeysNodup (st : RegState) : Prop := (st.map Prod.fst).Nodup

theorem eraseKey_sublist (n : String) :
    ∀ st : RegState, (eraseKey n st).Sublist st := by
  intro st
  induction st with
  | nil => simp [eraseKey]
  | cons e rest ih =>
    by_cases he : e.1 = n
    · simp only [eraseKey, if_pos he]
      exact List.sublist_cons_self e rest
    · simp only [eraseKey, if_neg he]
      exact List.Sublist.cons₂ e ih

theorem lookup_eraseKey_self (n : String) :
    ∀ st : RegState, KeysNodup st → (eraseKey n st).lookup n = none := by
  intro st
  induction st with
  | nil =>
    intro _
    rfl
  | cons e rest ih =>
    intro hnd
    unfold KeysNodup at hnd
    rw [List.map_cons, List.nodup_cons] at hnd
    by_cases he : e.1 = n
    · simp only [eraseKey, if_pos he]
      rw [lookup_none_iff]
      rw [← he]
      exact hnd.1
    · simp only [eraseKey, if_neg he]
      rw [lookup_cons_ne n e _ (fun hcontra => he hcontra.symm)]
      exact ih hnd.2

/-- **C6.** When a plugin named `inst.get_name` is already registered, a
load of a library creating such an instance fails with `NameCollision`,
emits exactly open, create, destroy (by this library's destroyer), close
— destroying the fresh instance strictly before closing the new library —
and leaves the registry state (the existing entry for that name and all
others) unchanged. -/
theorem claim_C6_name_collision (fs : String → Option LibSpec) (st : RegState)
    (path : String) (lib : LibSpec) (inst : PluginInstance)
    (hfs : fs path = some lib) (ho : lib.opens = true)
    (hc : lib.hasCreateSym = true) (hd : lib.hasDestroySym = true)
    (hmi : lib.madeInstance = some inst)
    (hcol : (st.lookup inst.get_name).isSome = true) :
    load fs st path = (.error .nameCollision, st,
      [Event.libOpened path, Event.created inst.instId,
       Event.destroyed inst.instId path, Event.libClosed path])
    ∧ (∃ i j : Nat, i < j
        ∧ [Event.libOpened path, Event.created inst.instId,
           Event.destroyed inst.instId path, Event.libClosed path].get? i =
            some (Event.destroyed inst.instId path)
        ∧ [Event.libOpened path, Event.created inst.instId,
           Event.destroyed inst.instId path, Event.libClosed path].get? j =
            some (Event.libClosed path)) := by
  constructor
  · unfold load
    rw [hfs]
    simp only [ho, if_true, hc, hd, Bool.and_self, hmi, hcol]
  · exact ⟨2, 3, by omega, rfl, rfl⟩

def instW6 : PluginInstance :=
  { instId := 1, get_name := "p", get_version := "1.0.0", typeIds := ["IPlugin"] }

def instW6old : PluginInstance :=
  { instId := 0, get_name := "p", get_version := "1.0.0", typeIds := ["IPlugin"] }

def libW6 : LibSpec :=
  { opens := true, hasCreateSym := true, hasDestroySym := true, madeInstance := some instW6 }

def fsW6 : String → Option LibSpec :=
  fun q => if q = "libp.so" then some libW6 else none

def stW6 : RegState := [("p", { inst := instW6old, library_handle := "old.so" })]

/-- Witness for C6: a second load of a library whose instance reports the
already-registered name `"p"`. -/
theorem claim_C6_name_collision_witness :
    (fsW6 "libp.so" = some libW6 ∧ libW6.opens = true ∧ libW6.hasCreateSym = true
      ∧ libW6.hasDestroySym = true ∧ libW6.madeInstance = some instW6
      ∧ (stW6.lookup instW6.get_name).isSome = true)
    ∧ (load fsW6 stW6 "libp.so" = (.error .nameCollision, stW6,
        [Event.libOpened "libp.so", Event.created instW6.instId,
         Event.destroyed instW6.instId "libp.so", Event.libClosed "libp.so"])
      ∧ (∃ i j : Nat, i < j
          ∧ [Event.libOpened "libp.so", Event.created instW6.instId,
             Event.destroyed instW6.instId "libp.so", Event.libClosed "libp.so"].get? i =
              some (Event.destroyed instW6.instId "libp.so")
          ∧ [Event.libOpened "libp.so", Event.created instW6.instId,
             Event.destroyed instW6.instId "libp.so", Event.libClosed "libp.so"].get? j =
              some (Event.libClosed "libp.so"))) :=
  ⟨⟨rfl, rfl, rfl, rfl, rfl, by decide⟩,
   claim_C6_name_collision fsW6 stW6 "libp.so" libW6 instW6 rfl rfl rfl rfl rfl (by decide)⟩

/-- The registry destructor empties the map and emits, for each entry in
iteration order, its destroy event immediately followed by its close
event. -/
theorem teardownLoop_keys :
    ∀ st : RegState,
      teardownLoop (st.map Prod.fst) st =
        ([], (st.map (fun e => [Event.destroyed e.2.inst.instId e.2.library_handle,
                                Event.libClosed e.2.library_handle])).flatten) := by
  intro st
  induction st with
  | nil => rfl
  | cons e rest ih =>
    have hl : List.lookup e.1 (e :: rest) = some e.2 := by
      simp [List.lookup]
    have he : eraseKey e.1 (e :: rest) = rest := by
      simp [eraseKey]
    have hu : unload (e :: rest) e.1 =
        (rest, [Event.destroyed e.2.inst.instId e.2.library_handle,
                Event.libClosed e.2.library_handle]) := by
      simp only [unload, hl, he]
    simp only [List.map_cons, teardownLoop, hu]
    rw [ih]
    simp [List.flatten_cons]

theorem mem_map_flatten_infix {α β : Type} (g : α → List β) :
    ∀ (l : List α) (e : α), e ∈ l →
      ∃ l1 l2, (l.map g).flatten = l1 ++ g e ++ l2 := by
  intro l
  induction l with
  | nil =>
    intro e he
    exact absurd he (List.not_mem_nil e)
  | cons a rest ih =>
    intro e he
    rcases List.mem_cons.mp he with rfl | he0
    · exact ⟨[], (rest.map g).flatten, by simp⟩
    · obtain ⟨l1, l2, hl⟩ := ih e he0
      exact ⟨g a ++ l1, l2, by simp [hl]⟩

/-- **C7.** `unload` on a registered name destroys the instance via its
destroyer, then closes its library handle, then removes the entry; it is
a successful no-op on an absent name.  The registry destructor empties
the registry, and for every remaining handle the destroy event (by that
handle's destroyer) appears immediately before that handle's close event
in the teardown trace. -/
theorem claim_C7_unload_and_teardown :
    (∀ (st : RegState) (n : String) (h : PluginHandle), st.lookup n = some h →
        unload st n = (eraseKey n st,
          [Event.destroyed h.inst.instId h.library_handle,
           Event.libClosed h.library_handle]))
    ∧ (∀ (st : RegState) (n : String), st.lookup n = none → unload st n = (st, []))
    ∧ (∀ st : RegState, (registryTeardown st).1 = []
        ∧ ∀ e ∈ st, ∃ l1 l2, (registryTeardown st).2 =
            l1 ++ [Event.destroyed e.2.inst.instId e.2.library_handle,
                   Event.libClosed e.2.library_handle] ++ l2) := by
  refine ⟨?_, ?_, ?_⟩
  · intro st n h hl
    simp only [unload, hl]
  · intro st n hl
    simp only [unload, hl]
  · intro st
    unfold registryTeardown
    rw [teardownLoop_keys st]
    refine ⟨rfl, ?_⟩
    intro e he
    exact mem_map_flatten_infix _ st e he

def instWa : PluginInstance :=
  { instId := 10, get_name := "a", get_version := "1", typeIds := ["IPlugin"] }

def instWb : PluginInstance :=
  { instId := 11, get_name := "b", get_version := "1", typeIds := ["IPlugin"] }

def haW : PluginHandle := { inst := instWa, library_handle := "liba.so" }

def hbW : PluginHandle := { inst := instWb, library_handle := "libb.so" }

def stW7 : RegState := [("a", haW), ("b", hbW)]

/-- Witness for C7 on a two-plugin registry. -/
theorem claim_C7_unload_and_teardown_witness :
    unload stW7 "a" = (eraseKey "a" stW7,
      [Event.destroyed haW.inst.instId haW.library_handle,
       Event.libClosed haW.library_handle])
    ∧ unload stW7 "zz" = (stW7, [])
    ∧ (registryTeardown stW7).1 = []
    ∧ (∃ l1 l2, (registryTeardown stW7).2 =
        l1 ++ [Event.destroyed hbW.inst.instId hbW.library_handle,
               Event.libClosed hbW.library_handle] ++ l2) :=
  ⟨claim_C7_unload_and_teardown.1 stW7 "a" haW rfl,
   claim_C7_unload_and_teardown.2.1 stW7 "zz" rfl,
   (claim_C7_unload_and_teardown.2.2 stW7).1,
   (claim_C7_unload_and_teardown.2.2 stW7).2 ("b", hbW) (by decide)⟩

/-- **C9.** `get<T>(n)` fails with `NotLoaded` when no plugin named `n`
is registered; fails with `TypeMismatch` when the registered instance
does not implement the requested interface, leaving the plugin loaded;
and otherwise returns (a non-null pointer to) the registered instance
narrowed to the requested interface. -/
theorem claim_C9_typed_get (st : RegState) (n tid : String) :
    (st.lookup n = none → getTyped st tid n = .error .notLoaded)
    ∧ (∀ h : PluginHandle, st.lookup n = some h → tid ∉ h.inst.typeIds →
        getTyped st tid n = .error .typeMismatch ∧ has st n = true)
    ∧ (∀ h : PluginHandle, st.lookup n = some h → tid ∈ h.inst.typeIds →
        getTyped st tid n = .ok h.inst) := by
  refine ⟨?_, ?_, ?_⟩
  · intro hl
    simp [getTyped, get_raw, hl]
  · intro h hl hmem
    constructor
    · simp [getTyped, get_raw, hl, hmem]
    · simp [has, hl]
  · intro h hl hmem
    simp [getTyped, get_raw, hl, hmem]

def instWp : PluginInstance :=
  { instId := 13, get_name := "p", get_version := "1.0.0", typeIds := ["IValid"] }

def instWq : PluginInstance :=
  { instId := 12, get_name := "q", get_version := "1", typeIds := ["IOther"] }

def hqW : PluginHandle := { inst := instWq, library_handle := "libo.so" }

def stW9 : RegState := [("p", { inst := instWp, library_handle := "libp2.so" }), ("q", hqW)]

/-- Witness for C9: an absent name, a wrong-interface plugin that stays
loaded, and a successful typed retrieval. -/
theorem claim_C9_typed_get_witness :
    getTyped stW9 "IValid" "absent" = .error .notLoaded
    ∧ (getTyped stW9 "IValid" "q" = .error .typeMismatch ∧ has stW9 "q" = true)
    ∧ getTyped stW9 "IValid" "p" = .ok instWp :=
  ⟨(claim_C9_typed_get stW9 "absent" "IValid").1 rfl,
   (claim_C9_typed_get stW9 "q" "IValid").2.1 hqW rfl (by decide),
   (claim_C9_typed_get stW9 "p" "IValid").2.2
     { inst := instWp, library_handle := "libp2.so" } rfl (by decide)⟩

/-! ## Registry operation sequences (for the `has` characterization) -/

/-- A registry mutation issued by the host. -/
inductive RegOp where
  | load (path : String)
  | unload (n : String)
  deriving Repr, DecidableEq

/-- One registry mutation, keeping only the state (events dropped). -/
def regStep (fs : String → Option LibSpec) (st : RegState) : RegOp → RegState
  | .load p => (load fs st p).2.1
  | .unload n => (unload st n).1

/-- The registry state after a sequence of operations, from the empty
registry. -/
def runOps (fs : String → Option LibSpec) (ops : List RegOp) : RegState :=
  ops.foldl (regStep fs) []

/-- A `load` of path `p` in state `st` succeeds and registers a plugin
whose self-declared name is `n`: the library exists, opens, exposes both
factory symbols, creates an instance named `n`, and no plugin named `n`
is registered yet. -/
def loadRegistersName (fs : String → Option LibSpec) (st : RegState) (p n : String) : Prop :=
  ∃ lib inst, fs p = some lib ∧ lib.opens = true ∧ lib.hasCreateSym = true
    ∧ lib.hasDestroySym = true ∧ lib.madeInstance = some inst
    ∧ inst.get_name = n ∧ st.lookup n = none

theorem loadRegistersName_name_eq (fs : String → Option LibSpec) (st : RegState)
    (p n m : String) (h1 : loadRegistersName fs st p n)
    (h2 : loadRegistersName fs st p m) : n = m := by
  obtain ⟨lib, inst, ha1, -, -, -, ha5, ha6, -⟩ := h1
  obtain ⟨lib', inst', hb1, -, -, -, hb5, hb6, -⟩ := h2
  rw [ha1] at hb1
  injection hb1 with hlib
  subst hlib
  rw [ha5] at hb5
  injection hb5 with hinst
  subst hinst
  rw [← ha6, ← hb6]

/-- Dichotomy for `load`: either it leaves the state unchanged and no
name is registered, or it registers exactly the created instance's name
in front of the map. -/
theorem load_state_cases (fs : String → Option LibSpec) (st : RegState) (p : String) :
    ((load fs st p).2.1 = st ∧ ∀ m, ¬ loadRegistersName fs st p m)
    ∨ ∃ inst : PluginInstance,
        loadRegistersName fs st p inst.get_name
        ∧ (load fs st p).2.1 = (inst.get_name, ⟨inst, p⟩) :: st := by
  cases hfs : fs p with
  | none =>
    left
    refine ⟨by simp [load, hfs], ?_⟩
    rintro m ⟨lib, inst, h1, -⟩
    rw [hfs] at h1
    exact Option.noConfusion h1
  | some lib =>
    cases ho : lib.opens with
    | false =>
      left
      refine ⟨by simp [load, hfs, ho], ?_⟩
      rintro m ⟨lib', inst, h1, h2, -⟩
      rw [hfs] at h1
      injection h1 with h1
      subst h1
      rw [ho] at h2
      exact Bool.noConfusion h2
    | true =>
      cases hc : lib.hasCreateSym with
      | false =>
        left
        refine ⟨by simp [load, hfs, ho, hc], ?_⟩
        rintro m ⟨lib', inst, h1, -, h3, -⟩
        rw [hfs] at h1
        injection h1 with h1
        subst h1
        rw [hc] at h3
        exact Bool.noConfusion h3
      | true =>
        cases hd : lib.hasDestroySym with
        | false =>
          left
          refine ⟨by simp [load, hfs, ho, hc, hd], ?_⟩
          rintro m ⟨lib', inst, h1, -, -, h4, -⟩
          rw [hfs] at h1
          injection h1 with h1
          subst h1
          rw [hd] at h4
          exact Bool.noConfusion h4
        | true =>
          cases hmi : lib.madeInstance with
          | none =>
            left
            refine ⟨by simp [load, hfs, ho, hc, hd, hmi], ?_⟩
            rintro m ⟨lib', inst, h1, -, -, -, h5, -⟩
            rw [hfs] at h1
            injection h1 with h1
            subst h1
            rw [hmi] at h5
            exact Option.noConfusion h5
          | some inst =>
            cases hcol : (st.lookup inst.get_name).isSome with
            | true =>
              left
              refine ⟨by simp [load, hfs, ho, hc, hd, hmi, hcol], ?_⟩
              rintro m ⟨lib', inst', h1, -, -, -, h5, h6, h7⟩
              rw [hfs] at h1
              injection h1 with h1
              subst h1
              rw [hmi] at h5
              injection h5 with h5
              subst h5
              rw [h6, h7] at hcol
              exact Bool.noConfusion hcol.symm
            | false =>
              right
              have h7 : st.lookup inst.get_name = none := by
                rcases hop : st.lookup inst.get_name with - | v
                · rfl
                · rw [hop] at hcol
                  simp at hcol
              refine ⟨inst, ⟨lib, inst, hfs, ho, hc, hd, hmi, rfl, h7⟩, ?_⟩
              simp [load, hfs, ho, hc, hd, hmi, hcol]

theorem load_lookup_registered (fs : String → Option LibSpec) (st : RegState)
    (p n : String) (h : loadRegistersName fs st p n) :
    (((load fs st p).2.1).lookup n).isSome = true := by
  rcases load_state_cases fs st p with ⟨-, hno⟩ | ⟨inst, hreg, hstate⟩
  · exact absurd h (hno n)
  · have hn : n = inst.get_name := loadRegistersName_name_eq fs st p n _ h hreg
    subst hn
    rw [hstate]
    simp [List.lookup]

theorem load_lookup_other (fs : String → Option LibSpec) (st : RegState)
    (p n : String) (h : ¬ loadRegistersName fs st p n) :
    ((load fs st p).2.1).lookup n = st.lookup n := by
  rcases load_state_cases fs st p with ⟨hstate, -⟩ | ⟨inst, hreg, hstate⟩
  · rw [hstate]
  · have hne : n ≠ inst.get_name := by
      intro hcontra
      subst hcontra
      exact h hreg
    rw [hstate, lookup_cons_ne n (inst.get_name, ⟨inst, p⟩) st hne]

theorem unload_lookup_self (st : RegState) (n : String) (hnd : KeysNodup st) :
    ((unload st n).1).lookup n = none := by
  unfold unload
  cases hl : st.lookup n with
  | none => exact hl
  | some h => exact lookup_eraseKey_self n st hnd

theorem unload_lookup_other (st : RegState) (n m : String) (hne : m ≠ n) :
    ((unload st n).1).lookup m = st.lookup m := by
  unfold unload
  cases hl : st.lookup n with
  | none => rfl
  | some h => exact lookup_eraseKey_ne n m hne st

theorem runOps_append_singleton (fs : String → Option LibSpec) (ops : List RegOp)
    (op : RegOp) : runOps fs (ops ++ [op]) = regStep fs (runOps fs ops) op := by
  simp [runOps, List.foldl_append]

theorem runOps_nodup (fs : String → Option LibSpec) :
    ∀ ops : List RegOp, KeysNodup (runOps fs ops) := by
  intro ops
  induction ops using List.reverseRecOn with
  | nil => simp [runOps, KeysNodup]
  | append_singleton ops op ih =>
    rw [runOps_append_singleton]
    cases op with
    | unload m =>
      simp only [regStep]
      unfold unload
      cases hl : (runOps fs ops).lookup m with
      | none => exact ih
      | some h =>
        unfold KeysNodup
        exact List.Nodup.sublist
          (List.Sublist.map Prod.fst (eraseKey_sublist m (runOps fs ops))) ih
    | load p =>
      simp only [regStep]
      rcases load_state_cases fs (runOps fs ops) p with ⟨hstate, -⟩ | ⟨inst, hreg, hstate⟩
      · rw [hstate]
        exact ih
      · rw [hstate]
        unfold KeysNodup
        rw [List.map_cons, List.nodup_cons]
        obtain ⟨-, -, -, -, -, -, -, -, h7⟩ := hreg
        exact ⟨(lookup_none_iff inst.get_name (runOps fs ops)).mp h7, ih⟩

theorem append_singleton_eq_append_cons {α : Type} (xs ys zs : List α) (a b : α)
    (h : xs ++ [a] = ys ++ b :: zs) :
    (zs = [] ∧ b = a ∧ ys = xs) ∨ ∃ zs', zs = zs' ++ [a] ∧ xs = ys ++ b :: zs' := by
  rcases List.eq_nil_or_concat zs with rfl | ⟨zs', c, rfl⟩
  · left
    have h2 := List.append_inj' h (by simp)
    refine ⟨rfl, ?_, h2.1.symm⟩
    have := h2.2
    injection this with hba
    exact hba.symm
  · right
    have h2 : xs ++ [a] = (ys ++ b :: zs') ++ [c] := by
      rw [h]
      simp
    have h3 := List.append_inj' h2 (by simp)
    have hac : a = c := by
      have h4 := h3.2
      simp only [List.cons.injEq, and_true] at h4
      exact h4
    refine ⟨zs', ?_, h3.1⟩
    rw [← hac]
    exact List.concat_eq_append zs' a

/-- **C8.** Starting from the empty registry, `has n` holds after a
sequence of operations exactly when some prior `load` succeeded and
registered a plugin whose self-declared name is `n`, and no later
`unload n` occurred. -/
theorem claim_C8_has_iff (fs : String → Option LibSpec) (ops : List RegOp) (n : String) :
    has (runOps fs ops) n = true ↔
      ∃ l1 p l2, ops = l1 ++ RegOp.load p :: l2
        ∧ loadRegistersName fs (runOps fs l1) p n
        ∧ RegOp.unload n ∉ l2 := by
  induction ops using List.reverseRecOn with
  | nil =>
    constructor
    · intro h
      simp [has, runOps] at h
    · rintro ⟨l1, p, l2, habs, -, -⟩
      cases l1 with
      | nil => exact List.noConfusion habs
      | cons a t => exact List.noConfusion habs
  | append_singleton ops op ih =>
    rw [runOps_append_singleton]
    cases op with
    | unload m =>
      simp only [regStep]
      by_cases hmn : m = n
      · subst hmn
        constructor
        · intro h
          simp only [has] at h
          rw [unload_lookup_self (runOps fs ops) m (runOps_nodup fs ops)] at h
          exact absurd h (by simp)
        · rintro ⟨l1, p, l2, heq, hreg, hnotin⟩
          rcases append_singleton_eq_append_cons ops l1 l2 (RegOp.unload m) (RegOp.load p) heq
            with ⟨-, hbad, -⟩ | ⟨zs', hz, -⟩
          · exact RegOp.noConfusion hbad
          · exfalso
            apply hnotin
            rw [hz]
            exact List.mem_append.mpr (Or.inr (by simp))
      · have hlk := unload_lookup_other (runOps fs ops) m n (fun hcontra => hmn hcontra.symm)
        constructor
        · intro h
          simp only [has] at h
          rw [hlk] at h
          obtain ⟨l1, p, l2, heq, hreg, hni⟩ := ih.mp (by simp only [has]; exact h)
          refine ⟨l1, p, l2 ++ [RegOp.unload m], ?_, hreg, ?_⟩
          · rw [heq]
            simp
          · intro hmem
            rcases List.mem_append.mp hmem with h1 | h2
            · exact hni h1
            · simp only [List.mem_singleton, RegOp.unload.injEq] at h2
              exact hmn h2.symm
        · rintro ⟨l1, p, l2, heq, hreg, hni⟩
          rcases append_singleton_eq_append_cons ops l1 l2 (RegOp.unload m) (RegOp.load p) heq
            with ⟨-, hbad, -⟩ | ⟨zs', hz, hops⟩
          · exact RegOp.noConfusion hbad
          · simp only [has]
            rw [hlk]
            have hih := ih.mpr ⟨l1, p, zs', hops, hreg,
              fun hm => hni (by rw [hz]; exact List.mem_append.mpr (Or.inl hm))⟩
            simp only [has] at hih
            exact hih
    | load p0 =>
      simp only [regStep]
      by_cases hreg : loadRegistersName fs (runOps fs ops) p0 n
      · constructor
        · intro _
          exact ⟨ops, p0, [], rfl, hreg, by simp⟩
        · intro _
          simp only [has]
          exact load_lookup_registered fs (runOps fs ops) p0 n hreg
      · have hlk := load_lookup_other fs (runOps fs ops) p0 n hreg
        constructor
        · intro h
          simp only [has] at h
          rw [hlk] at h
          obtain ⟨l1, p, l2, heq, hr, hni⟩ := ih.mp (by simp only [has]; exact h)
          refine ⟨l1, p, l2 ++ [RegOp.load p0], ?_, hr, ?_⟩
          · rw [heq]
            simp
          · intro hmem
            rcases List.mem_append.mp hmem with h1 | h2
            · exact hni h1
            · simp at h2
        · rintro ⟨l1, p, l2, heq, hr, hni⟩
          rcases append_singleton_eq_append_cons ops l1 l2 (RegOp.load p0) (RegOp.load p) heq
            with ⟨hl2, hbad, hl1⟩ | ⟨zs', hz, hops⟩
          · injection hbad with hp
            subst hp
            subst hl1
            exact absurd hr hreg
          · simp only [has]
            rw [hlk]
            have hih := ih.mpr ⟨l1, p, zs', hops, hr,
              fun hm => hni (by rw [hz]; exact List.mem_append.mpr (Or.inl hm))⟩
            simp only [has] at hih
            exact hih

def libW8q : LibSpec :=
  { opens := true, hasCreateSym := true, hasDestroySym := true,
    madeInstance := some instWq }

def fsW8 : String → Option LibSpec :=
  fun q => if q = "libp.so" then some libW6 else if q = "libo.so" then some libW8q else none

def opsW8 : List RegOp :=
  [RegOp.load "libp.so", RegOp.load "libo.so", RegOp.unload "q"]

/-- Witness for C8 at a concrete operation sequence (load two plugins,
unload the second). -/
theorem claim_C8_has_iff_witness :
    has (runOps fsW8 opsW8) "p" = true ↔
      ∃ l1 p l2, opsW8 = l1 ++ RegOp.load p :: l2
        ∧ loadRegistersName fsW8 (runOps fsW8 l1) p "p"
        ∧ RegOp.unload "p" ∉ l2 :=
  claim_C8_has_iff fsW8 opsW8 "p"

end LibPlugin
